import Mathlib

/-!
Verification development for the crypto analytics pipeline
(`analyzers.py`, `alert_system.py`, `data_manager.py`, `main.py`,
`main_scheduled.py`).

The Python source is shallowly embedded: floats are modelled as exact
rationals, `datetime` values by explicit calendar structures, epoch
seconds by integers, Python dicts by association lists, and exceptions
by `Except` or by the `Option`-typed record fields whose absence makes
the corresponding subscript raise.  Each definition mirrors one Python
function and keeps its name.
-/

/-! ## MD5 (RFC 1321), used by `DeduplicationManager.create_cache_key`
(`hashlib.md5(key_components.encode()).hexdigest()[:16]`).
Bytes are natural numbers below 256; all words are reduced mod 2^32. -/

/-- Little-endian byte list of length `k` for the natural number `n`. -/
def leBytes : Nat → Nat → List Nat
  | 0, _ => []
  | k + 1, n => (n % 256) :: leBytes k (n / 256)

/-- MD5 per-round left-rotation amounts. -/
def md5S : List Nat :=
  [7, 12, 17, 22, 7, 12, 17, 22, 7, 12, 17, 22, 7, 12, 17, 22,
   5, 9, 14, 20, 5, 9, 14, 20, 5, 9, 14, 20, 5, 9, 14, 20,
   4, 11, 16, 23, 4, 11, 16, 23, 4, 11, 16, 23, 4, 11, 16, 23,
   6, 10, 15, 21, 6, 10, 15, 21, 6, 10, 15, 21, 6, 10, 15, 21]

/-- MD5 sine-derived constants `K[i] = floor(abs(sin(i+1)) * 2^32)`. -/
def md5K : List Nat :=
  [3614090360, 3905402710, 606105819, 3250441966, 4118548399, 1200080426,
   2821735955, 4249261313, 1770035416, 2336552879, 4294925233, 2304563134,
   1804603682, 4254626195, 2792965006, 1236535329, 4129170786, 3225465664,
   643717713, 3921069994, 3593408605, 38016083, 3634488961, 3889429448,
   568446438, 3275163606, 4107603335, 1163531501, 2850285829, 4243563512,
   1735328473, 2368359562, 4294588738, 2272392833, 1839030562, 4259657740,
   2763975236, 1272893353, 4139469664, 3200236656, 681279174, 3936430074,
   3572445317, 76029189, 3654602809, 3873151461, 530742520, 3299628645,
   4096336452, 1126891415, 2878612391, 4237533241, 1700485571, 2399980690,
   4293915773, 2240044497, 1873313359, 4264355552, 2734768916, 1309151649,
   4149444226, 3174756917, 718787259, 3951481745]

/-- Addition modulo 2^32. -/
def add32 (a b : Nat) : Nat := (a + b) % 4294967296

/-- Bitwise complement on 32-bit words. -/
def not32 (x : Nat) : Nat := Nat.xor x 4294967295

/-- Left rotation of a 32-bit word by `n` bits. -/
def rotl32 (x n : Nat) : Nat :=
  Nat.lor ((Nat.shiftLeft x n) % 4294967296) (Nat.shiftRight x (32 - n))

/-- MD5 nonlinear round function, selected by round index `i`. -/
def md5F (i b c d : Nat) : Nat :=
  if i < 16 then Nat.lor (Nat.land b c) (Nat.land (not32 b) d)
  else if i < 32 then Nat.lor (Nat.land d b) (Nat.land (not32 d) c)
  else if i < 48 then Nat.xor b (Nat.xor c d)
  else Nat.xor c (Nat.lor b (not32 d))

/-- MD5 message-word index for round `i`. -/
def md5G (i : Nat) : Nat :=
  if i < 16 then i
  else if i < 32 then (5 * i + 1) % 16
  else if i < 48 then (3 * i + 5) % 16
  else (7 * i) % 16

/-- One MD5 round applied to the state `(a, b, c, d)` with message words `M`. -/
def md5Step (M : List Nat) (st : Nat × Nat × Nat × Nat) (i : Nat) :
    Nat × Nat × Nat × Nat :=
  let a := st.1
  let b := st.2.1
  let c := st.2.2.1
  let d := st.2.2.2
  let f := add32 (add32 a (md5F i b c d)) (add32 (md5K.getD i 0) (M.getD (md5G i) 0))
  (d, add32 b (rotl32 f (md5S.getD i 0)), b, c)

/-- Group a little-endian byte list into 32-bit words. -/
def md5Words : List Nat → List Nat
  | b0 :: b1 :: b2 :: b3 :: rest =>
      (b0 + 256 * (b1 + 256 * (b2 + 256 * b3))) :: md5Words rest
  | _ => []

/-- Process one 64-byte chunk: 64 rounds then add the incoming state. -/
def md5Chunk (st : Nat × Nat × Nat × Nat) (chunk : List Nat) :
    Nat × Nat × Nat × Nat :=
  let M := md5Words chunk
  let r := (List.range 64).foldl (md5Step M) st
  (add32 st.1 r.1, add32 st.2.1 r.2.1, add32 st.2.2.1 r.2.2.1,
   add32 st.2.2.2 r.2.2.2)

/-- Process a padded byte stream 64 bytes at a time.  The `fuel` argument
only makes the recursion structural (so that it reduces inside the kernel);
callers pass at least one unit of fuel per 64-byte chunk, so it never runs
out. -/
def md5Chunks (st : Nat × Nat × Nat × Nat) :
    Nat → List Nat → Nat × Nat × Nat × Nat
  | _, [] => st
  | 0, _ :: _ => st
  | fuel + 1, b :: rest =>
      md5Chunks (md5Chunk st ((b :: rest).take 64)) fuel ((b :: rest).drop 64)

/-- MD5 padding: append `0x80`, zeros to 56 mod 64, then the 64-bit
little-endian bit length. -/
def md5Pad (msg : List Nat) : List Nat :=
  let z := (119 - msg.length % 64) % 64
  msg ++ [128] ++ List.replicate z 0 ++ leBytes 8 ((8 * msg.length) % 18446744073709551616)

/-- Lowercase hex digit. -/
def hexDigit (n : Nat) : Char :=
  (String.toList "0123456789abcdef").getD n '0'

/-- Two lowercase hex digits of a byte. -/
def byteHex (b : Nat) : String :=
  String.mk [hexDigit (b / 16), hexDigit (b % 16)]

/-- Hex rendering of a 32-bit word, least-significant byte first. -/
def wordHexLE (w : Nat) : String :=
  byteHex (w % 256) ++ byteHex (w / 256 % 256) ++ byteHex (w / 65536 % 256) ++
    byteHex (w / 16777216 % 256)

/-- MD5 hex digest of a string.  The ASCII strings hashed by
`create_cache_key` encode to UTF-8 bytes equal to their code points, so
bytes are taken as the characters' code points. -/
def md5hex (s : String) : String :=
  let bytes := (String.toList s).map Char.toNat
  let padded := md5Pad bytes
  let r := md5Chunks (1732584193, 4023233417, 2562383102, 271733878)
    (padded.length) padded
  wordHexLE r.1 ++ wordHexLE r.2.1 ++ wordHexLE r.2.2.1 ++ wordHexLE r.2.2.2

/-! ## Python value modelling: times, rounding, formatting -/

/-- Calendar timestamp at the resolution consumed by the
`'%Y%m%d_%H%M'` format string (year, month, day, hour, minute). -/
structure PyDateTime where
  year : Nat
  month : Nat
  day : Nat
  hour : Nat
  minute : Nat
deriving DecidableEq

/-- Zero-padded two-digit decimal rendering, as `%m`, `%d`, `%H`, `%M`. -/
def pad2 (n : Nat) : String := if n < 10 then "0" ++ toString n else toString n

/-- Zero-padded four-digit decimal rendering, as `%Y`. -/
def pad4 (n : Nat) : String :=
  if n < 10 then "000" ++ toString n
  else if n < 100 then "00" ++ toString n
  else if n < 1000 then "0" ++ toString n
  else toString n

/-- The format `candle_ts.strftime('%Y%m%d_%H%M')` used in
`create_cache_key`. -/
def strfMinute (t : PyDateTime) : String :=
  pad4 t.year ++ pad2 t.month ++ pad2 t.day ++ "_" ++ pad2 t.hour ++ pad2 t.minute

/-- Floor of a rational (`q.den` is positive, so Euclidean division of the
numerator is the floor). -/
def ratFloor (q : ℚ) : ℤ := Int.ediv q.num q.den

/-- Round to the nearest integer, ties to even: the semantics of Python's
`round` (floats are modelled as exact rationals). -/
def pyRoundHalfEven (q : ℚ) : ℤ :=
  let f := ratFloor q
  let r := q - (f : ℚ)
  if r < 1 / 2 then f
  else if 1 / 2 < r then f + 1
  else if f % 2 = 0 then f else f + 1

/-- Python `round(x, 1)`, returned as the integer number of tenths. -/
def pyRound1 (q : ℚ) : ℤ := pyRoundHalfEven (q * 10)

/-- Decimal rendering of a nonnegative number of tenths: `623` prints as
`"62.3"`. -/
def tenthsNatToString (n : Nat) : String :=
  toString (n / 10) ++ "." ++ toString (n % 10)

/-- Decimal rendering of a number of tenths, as Python string-formats a
one-decimal float: `-620` tenths prints as `"-62.0"`. -/
def tenthsToString (z : ℤ) : String :=
  if z < 0 then "-" ++ tenthsNatToString (-z).toNat else tenthsNatToString z.toNat

/-- Python `int(q)` on a number: truncation toward zero. -/
def pyTrunc (q : ℚ) : ℤ := Int.tdiv q.num q.den

/-! ## Deduplication data model (`alert_system.py`)

`coin` and `signal` are Python dicts.  Fields read with a raising
subscript (`coin['symbol']`, `signal['signal_type']`) or with `.get`
are modelled as `Option` fields: `none` is an absent key (a raising
subscript on it is the exception path).  The `candle_timestamp` value is
either a string (used verbatim) or a datetime (minute-formatted), as in
the `isinstance(candle_ts, str)` branch. -/

/-- A `candle_timestamp` dict value: string or datetime. -/
inductive CandleTS where
  | str (s : String)
  | dt (t : PyDateTime)
deriving DecidableEq

/-- The asset-descriptor dict fields read by the deduplication code. -/
structure Coin where
  symbol : Option String
  current_price : Option ℚ
  total_volume : Option ℚ
deriving DecidableEq

/-- The signal dict fields read by the deduplication code. -/
structure Signal where
  signal_type : Option String
  candle_timestamp : Option CandleTS
  wt1 : Option ℚ
  wt2 : Option ℚ
  stoch_rsi_k : Option ℚ
  stoch_rsi_d : Option ℚ
  strength : Option ℚ
deriving DecidableEq

/-- A value of the deduplication cache dict.  `timestamp` holds the parse
result of the stored ISO-8601 string as epoch seconds: `some t` for a
well-formed string denoting `t`, `none` for a string on which
`datetime.fromisoformat` raises. -/
structure CacheRecord where
  symbol : String
  signal_type : String
  timestamp : Option ℤ
  wt1 : ℚ
  wt2 : ℚ
  stoch_k : ℚ
  stoch_d : ℚ
  price : ℚ
deriving DecidableEq

/-- The deduplication cache dict: one record per key. -/
abbrev DedupCache := List (String × CacheRecord)

/-- Dict lookup. -/
def dictGet (k : String) : DedupCache → Option CacheRecord
  | [] => none
  | (k', v) :: rest => if k' = k then some v else dictGet k rest

/-- Dict store `cache[k] = v`: overwrites in place or appends. -/
def dictSet (k : String) (v : CacheRecord) : DedupCache → DedupCache
  | [] => [(k, v)]
  | (k', v') :: rest =>
      if k' = k then (k, v) :: rest else (k', v') :: dictSet k v rest

/-- Dict deletion `del cache[k]`. -/
def dictDel (k : String) : DedupCache → DedupCache
  | [] => []
  | (k', v') :: rest => if k' = k then rest else (k', v') :: dictDel k rest

/-! ## `DeduplicationManager` operations -/

/-- The `{wt1}` component of the key string: a present value is
`round(x, 1)` then interpolated; an absent key falls back to the default
`0` (an `int`, printing without a decimal point). -/
def roundedComponent (v : Option ℚ) : String :=
  match v with
  | some q => tenthsToString (pyRound1 q)
  | none => "0"

/-- The `{price_bucket}` component `int(coin.get('current_price', 0) * 1000)`
(and its volume analogue with divisor `1000000`). -/
def bucketComponent (v : Option ℚ) (mulNum mulDen : ℚ) : String :=
  match v with
  | some q => toString (pyTrunc (q * mulNum / mulDen))
  | none => "0"

/-- The `candle_ts_str` component: a string `candle_timestamp` is used
verbatim, a datetime is minute-formatted, and a missing key defaults to
the current time `datetime.utcnow()` (`nowDT`). -/
def candle_ts_str (signal : Signal) (nowDT : PyDateTime) : String :=
  match signal.candle_timestamp with
  | some (.str s) => s
  | some (.dt t) => strfMinute t
  | none => strfMinute nowDT

/-- The joined `key_components` string of `create_cache_key` for a present
`symbol` and `action`. -/
def key_components (coin : Coin) (signal : Signal) (nowDT : PyDateTime)
    (symbol action : String) : String :=
  symbol ++ "_" ++ action ++ "_" ++ candle_ts_str signal nowDT ++ "_" ++
    roundedComponent signal.wt1 ++ "_" ++ roundedComponent signal.wt2 ++ "_" ++
    roundedComponent signal.stoch_rsi_k ++ "_" ++
    roundedComponent signal.stoch_rsi_d ++ "_" ++
    bucketComponent coin.current_price 1000 1 ++ "_" ++
    bucketComponent coin.total_volume 1 1000000

/-- `DeduplicationManager.create_cache_key`.  The happy path joins the
component values with `_` and keeps the first 16 hex digits of the MD5;
any error (a missing `symbol` or `signal_type` key makes the subscript
raise) is caught and yields the simple fallback key built from
`coin.get`/`signal.get` defaults and `int(time.time())` (`nowSec`). -/
def create_cache_key (coin : Coin) (signal : Signal)
    (nowDT : PyDateTime) (nowSec : ℤ) : String :=
  match coin.symbol, signal.signal_type with
  | some symbol, some action =>
      (md5hex (key_components coin signal nowDT symbol action)).take 16
  | _, _ =>
      (coin.symbol.getD "UNKNOWN") ++ "_" ++
        (signal.signal_type.getD "NONE") ++ "_" ++ toString nowSec

/-- The strength-dependent deduplication window of
`DeduplicationManager.is_duplicate`, in seconds: 6 hours above strength
120, 8 hours above 100, else 12 hours. -/
def dedupWindow (strength : ℚ) : ℤ :=
  if strength > 120 then 21600 else if strength > 100 then 28800 else 43200

/-- The `try` body of `DeduplicationManager.is_duplicate`: compute the key,
look it up, parse the stored timestamp (raising on a malformed one —
the `.error` case), test the strength-dependent window, and evict an
expired record.  Returns the decision together with the updated cache. -/
def is_duplicate_body (cache : DedupCache) (coin : Coin) (signal : Signal)
    (nowDT : PyDateTime) (nowSec : ℤ) : Except String (Bool × DedupCache) :=
  let cache_key := create_cache_key coin signal nowDT nowSec
  match dictGet cache_key cache with
  | none => .ok (false, cache)
  | some r =>
      match r.timestamp with
      | none => .error "fromisoformat"
      | some alert_time =>
          let time_diff := nowSec - alert_time
          let strength := signal.strength.getD 0
          if time_diff < dedupWindow strength then .ok (true, cache)
          else .ok (false, dictDel cache_key cache)

/-- `DeduplicationManager.is_duplicate`: the body with its `except` handler,
which logs and returns `False` leaving the cache as it was. -/
def is_duplicate (cache : DedupCache) (coin : Coin) (signal : Signal)
    (nowDT : PyDateTime) (nowSec : ℤ) : Bool × DedupCache :=
  match is_duplicate_body cache coin signal nowDT nowSec with
  | .ok r => r
  | .error _ => (false, cache)

/-- `DeduplicationManager.mark_sent`, threading the persisted copy of the
cache (`disk`) alongside the in-memory dict.  The record is stored under
the computed key with the current timestamp; `save_cache` runs only when
`len(self.cache) % 10 == 0`.  A missing `symbol` or `signal_type` key
raises inside the record construction, is caught, and leaves both copies
unchanged. -/
def mark_sent (cache : DedupCache) (coin : Coin) (signal : Signal)
    (nowDT : PyDateTime) (nowSec : ℤ) (disk : DedupCache) :
    DedupCache × DedupCache :=
  match coin.symbol, signal.signal_type with
  | some symbol, some action =>
      let cache_key := create_cache_key coin signal nowDT nowSec
      let record : CacheRecord :=
        { symbol := symbol
          signal_type := action
          timestamp := some nowSec
          wt1 := signal.wt1.getD 0
          wt2 := signal.wt2.getD 0
          stoch_k := signal.stoch_rsi_k.getD 0
          stoch_d := signal.stoch_rsi_d.getD 0
          price := coin.current_price.getD 0 }
      let cache' := dictSet cache_key record cache
      if cache'.length % 10 = 0 then (cache', cache') else (cache', disk)
  | _, _ => (cache, disk)

/-! ## Heikin-Ashi conversion (`analyzers.py`, `HeikinAshiConverter.convert`) -/

/-- A raw OHLC candle row (the `Open`/`High`/`Low`/`Close` columns). -/
structure Candle where
  Open : ℚ
  High : ℚ
  Low : ℚ
  Close : ℚ
deriving DecidableEq

/-- A Heikin-Ashi candle (the `HA_Open`/`HA_High`/`HA_Low`/`HA_Close`
columns). -/
structure HACandle where
  HA_Open : ℚ
  HA_High : ℚ
  HA_Low : ℚ
  HA_Close : ℚ
deriving DecidableEq

/-- The first Heikin-Ashi candle: close is the OHLC mean, open the
open/close mean, high and low are copied. -/
def haFirst (c : Candle) : HACandle :=
  { HA_Open := (c.Open + c.Close) / 2
    HA_High := c.High
    HA_Low := c.Low
    HA_Close := (c.Open + c.High + c.Low + c.Close) / 4 }

/-- The Heikin-Ashi recurrence for candle `i > 0` given the previous HA
candle. -/
def haStep (prev : HACandle) (c : Candle) : HACandle :=
  let ha_close := (c.Open + c.High + c.Low + c.Close) / 4
  let ha_open := (prev.HA_Open + prev.HA_Close) / 2
  { HA_Open := ha_open
    HA_High := max c.High (max ha_open ha_close)
    HA_Low := min c.Low (min ha_open ha_close)
    HA_Close := ha_close }

/-- The left-to-right fold of `haStep` over the tail of the series. -/
def haTail (prev : HACandle) : List Candle → List HACandle
  | [] => []
  | c :: rest =>
      let h := haStep prev c
      h :: haTail h rest

/-- `HeikinAshiConverter.convert`: `None` for fewer than 2 candles,
otherwise the recursively built Heikin-Ashi series of the same length. -/
def convert (df : List Candle) : Option (List HACandle) :=
  if df.length < 2 then none
  else
    match df with
    | [] => none
    | c :: rest => some (haFirst c :: haTail (haFirst c) rest)

/-! ## TrendPulse (`analyzers.py`, `TrendPulseAnalyzer.analyze`)

Series are lists of rationals indexed like the dataframe rows.  `ewm`
with `adjust=False` and span `s` is the recurrence
`y 0 = x 0`, `y i = α x i + (1 - α) y (i-1)` with `α = 2 / (s + 1)`;
`rolling(w).mean()` is defined (`some`) from index `w - 1` on. -/

/-- The exponentially weighted recurrence after the seed value. -/
def emaGo (α : ℚ) (prev : ℚ) : List ℚ → List ℚ
  | [] => []
  | x :: rest =>
      let y := α * x + (1 - α) * prev
      y :: emaGo α y rest

/-- `TrendPulseAnalyzer.ema`: `series.ewm(span=length, adjust=False).mean()`. -/
def ema (length : ℕ) (xs : List ℚ) : List ℚ :=
  match xs with
  | [] => []
  | x :: rest => x :: emaGo (2 / (length + 1 : ℚ)) x rest

/-- `series.rolling(window=w).mean()`: `none` models the NaN entries before
the window fills. -/
def rollingMean (w : ℕ) (xs : List ℚ) : List (Option ℚ) :=
  (List.range xs.length).map fun i =>
    if w ≤ i + 1 then some (((xs.drop (i + 1 - w)).take w).sum / w) else none

/-- The HLC3 typical price of the Heikin-Ashi rows. -/
def ha_hlc3 (ha : List HACandle) : List ℚ :=
  ha.map fun c => (c.HA_High + c.HA_Low + c.HA_Close) / 3

/-- Elementwise `series.replace(0, 0.001)`. -/
def replaceZero (xs : List ℚ) : List ℚ :=
  xs.map fun x => if x = 0 then 1 / 1000 else x

/-- Elementwise absolute value, `abs(ha_hlc3 - esa)`. -/
def absDiff (xs ys : List ℚ) : List ℚ :=
  List.zipWith (fun a b => |a - b|) xs ys

/-- Elementwise `(ha_hlc3 - esa) / (0.015 * dev_safe)`. -/
def ciSeries (hlc3 esa dev_safe : List ℚ) : List ℚ :=
  List.zipWith (fun p q => p / q)
    (List.zipWith (fun a b => a - b) hlc3 esa)
    (dev_safe.map fun d => (15 / 1000) * d)

/-- The `wt1` series of `TrendPulseAnalyzer.analyze` (channel length 9,
average length 12). -/
def wt1Series (ha : List HACandle) : List ℚ :=
  let hlc3 := ha_hlc3 ha
  let esa := ema 9 hlc3
  let dev := ema 9 (absDiff hlc3 esa)
  let dev_safe := replaceZero dev
  ema 12 (ciSeries hlc3 esa dev_safe)

/-- The `wt2` series: `sma(wt1, 3)`, with `none` for the NaN warm-up. -/
def wt2Series (ha : List HACandle) : List (Option ℚ) :=
  rollingMean 3 (wt1Series ha)

/-- Value of `wt1` at row `i` (`float(wt1.iloc[i])`; rows read by
`analyze` always exist). -/
def wt1At (ha : List HACandle) (i : ℕ) : ℚ := (wt1Series ha).getD i 0

/-- Value of `wt2` at row `i` (rows read by `analyze` are past the
warm-up, so the NaN default is never consulted there). -/
def wt2At (ha : List HACandle) (i : ℕ) : ℚ :=
  (((wt2Series ha).getD i none).getD 0)

/-- Result record of `TrendPulseAnalyzer.analyze`.  The early-exit returns
carry no `cross_type` key, modelled by `none`. -/
structure TPResult where
  has_signal : Bool
  signal_type : String
  wt1 : ℚ
  wt2 : ℚ
  strength : ℚ
  cross_type : Option String
deriving DecidableEq

/-- The no-signal result shared by every early exit of `analyze`. -/
def noSignalResult : TPResult :=
  { has_signal := false, signal_type := "none", wt1 := 0, wt2 := 0,
    strength := 0, cross_type := none }

/-- The cross/extreme decision of `analyze` on the closed-candle values:
oversold and overbought thresholds (identical in the two tier branches),
cross detection, and the resulting `(has_signal, signal_type)` pair. -/
def cross_signal (tier_type : String)
    (wt1_previous wt2_previous wt1_current wt2_current : ℚ) : Bool × String :=
  let oversold :=
    if tier_type = "HIGH_RISK" then
      decide (wt1_current ≤ -60) && decide (wt2_current ≤ -60)
    else
      decide (wt1_current ≤ -60) && decide (wt2_current ≤ -60)
  let overbought :=
    if tier_type = "HIGH_RISK" then
      decide (wt1_current ≥ 60) && decide (wt2_current ≥ 60)
    else
      decide (wt1_current ≥ 60) && decide (wt2_current ≥ 60)
  let bullish_cross :=
    decide (wt1_previous ≤ wt2_previous) && decide (wt1_current > wt2_current)
  let bearish_cross :=
    decide (wt1_previous ≥ wt2_previous) && decide (wt1_current < wt2_current)
  if bullish_cross && oversold then (true, "BUY")
  else if bearish_cross && overbought then (true, "SELL")
  else (false, "none")

/-- The `cross_type` diagnostic of `analyze`. -/
def crossTypeOf (wt1_previous wt2_previous wt1_current wt2_current : ℚ) :
    String :=
  if wt1_previous ≤ wt2_previous ∧ wt1_current > wt2_current then "bullish"
  else if wt1_previous ≥ wt2_previous ∧ wt1_current < wt2_current then "bearish"
  else "none"

/-- Signal strength: `abs(wt1_current) + abs(wt2_current)`. -/
def strengthOf (wt1_current wt2_current : ℚ) : ℚ :=
  |wt1_current| + |wt2_current|

/-- `TrendPulseAnalyzer.analyze`: no signal when fewer than
`ch_len + avg_len + 5 = 26` rows are available (and the vacuous
`len(wt1) < 3` re-check); otherwise the cross/extreme decision on the
closed-candle rows `-2` and `-3`. -/
def analyze (ha : List HACandle) (tier_type : String) : TPResult :=
  if ha.length < 9 + 12 + 5 then noSignalResult
  else if ha.length < 3 then noSignalResult
  else
    let n := ha.length
    let wt1_current := wt1At ha (n - 2)
    let wt2_current := wt2At ha (n - 2)
    let wt1_previous := wt1At ha (n - 3)
    let wt2_previous := wt2At ha (n - 3)
    let r := cross_signal tier_type wt1_previous wt2_previous wt1_current wt2_current
    { has_signal := r.1
      signal_type := r.2
      wt1 := wt1_current
      wt2 := wt2_current
      strength := strengthOf wt1_current wt2_current
      cross_type := some (crossTypeOf wt1_previous wt2_previous wt1_current wt2_current) }

/-! ## Confirmation (`main.py` / `main_scheduled.py`, `analyze_coin`) -/

/-- The StochRSI confirmation branch of `AdvancedCryptoAnalytics.analyze_coin`
(`main.py`): `confirmed` starts `False`, is set on the `BUY` and `SELL`
branches, and the diagnostic `confirmation_reason` is only bound there. -/
def confirm_main (signal_type : String) (k d : ℚ) : Bool × Option String :=
  if signal_type = "BUY" then
    (decide (k < 20) && decide (d < 20), some "StochRSI_2H_Oversold")
  else if signal_type = "SELL" then
    (decide (k > 80) && decide (d > 80), some "StochRSI_2H_Overbought")
  else (false, none)

/-- The same branch in `GitHubActionsAnalytics.analyze_coin`
(`main_scheduled.py`), where the `else` arm handles everything that is
not `BUY`. -/
def confirm_scheduled (signal_type : String) (k d : ℚ) : Bool × Option String :=
  if signal_type = "BUY" then
    (decide (k < 20) && decide (d < 20), some "StochRSI_2H_Oversold")
  else
    (decide (k > 80) && decide (d > 80), some "StochRSI_2H_Overbought")

/-- The confirmed-signal record assembled by `analyze_coin`: the TrendPulse
result plus the confirming oscillator snapshot and reason. -/
structure ConfirmedSignal where
  tp : TPResult
  stoch_rsi_k : ℚ
  stoch_rsi_d : ℚ
  confirmation_reason : String
  candle_timestamp : PyDateTime
deriving DecidableEq

/-- The decision tail of `analyze_coin` (`main.py` lines 121-162) given
the TrendPulse result for the converted 1H series: bail out without a
TrendPulse signal, bail out when the StochRSI calculation failed
(`stochrsi : Option (ℚ × ℚ)` is its `(current_k, current_d)` result),
apply the threshold confirmation, and build the confirmed signal. -/
def analyze_coin_tail (trendpulse_signal : TPResult)
    (stochrsi : Option (ℚ × ℚ)) (closedTS : PyDateTime) :
    Option ConfirmedSignal :=
  if !trendpulse_signal.has_signal then none
  else
    match stochrsi with
    | none => none
    | some (k_value, d_value) =>
        let c := confirm_main trendpulse_signal.signal_type k_value d_value
        if c.1 then
          some { tp := trendpulse_signal
                 stoch_rsi_k := k_value
                 stoch_rsi_d := d_value
                 confirmation_reason := c.2.getD ""
                 candle_timestamp := closedTS }
        else none

/-! ## Signal processing (`process_signals`)

One iteration of the loop over confirmed signals: the duplicate check
(which may evict an expired record), chart lookup (external), dispatch
(whose boolean outcome `dispatchOk` is supplied by the Telegram layer),
and `mark_sent` on success only. -/

/-- One `process_signals` iteration.  State is the in-memory dedup cache
paired with its persisted copy; the result also reports whether the alert
was counted as sent and whether `mark_sent` ran. -/
def process_signal_step (cache disk : DedupCache) (coin : Coin)
    (signal : Signal) (nowDT : PyDateTime) (nowSec : ℤ) (dispatchOk : Bool) :
    (DedupCache × DedupCache) × Bool × Bool :=
  let dup := is_duplicate cache coin signal nowDT nowSec
  if dup.1 then ((dup.2, disk), false, false)
  else if dispatchOk then
    (mark_sent dup.2 coin signal nowDT nowSec disk, true, true)
  else ((dup.2, disk), false, false)

/-! ## Multi-timeframe fetch (`data_manager.py`, `main.py`) -/

/-- The symbol-resolution loop of `get_multi_timeframe_data`: the first
exchange (in the fixed priority order) where `find_symbol` — which
abstracts `find_symbol_on_exchange`, since market listings are external
— yields a pair format. -/
def find_working (find_symbol : String → String → Option String)
    (symbol : String) : Option (String × String) :=
  ["bingx", "binance", "okx", "bybit"].foldl
    (fun acc ex =>
      match acc with
      | some r => some r
      | none => (find_symbol ex symbol).map fun s => (ex, s))
    none

/-- `MultiExchangeManager.get_multi_timeframe_data`: resolve a working
`(exchange, symbol)` pair by fixed priority, then fetch every requested
timeframe, keeping only the successful ones.  `fetch` abstracts
`fetch_ohlcv_with_retry` for the resolved pair. -/
def get_multi_timeframe_data
    (find_symbol : String → String → Option String)
    (fetch : String → String → String → ℕ → Option (List Candle))
    (symbol : String) (timeframes : List (String × ℕ)) :
    List (String × List Candle) :=
  match find_working find_symbol symbol with
  | none => []
  | some (ex, sym) =>
      timeframes.foldr
        (fun tf acc =>
          match fetch ex sym tf.1 tf.2 with
          | some df => (tf.1, df) :: acc
          | none => acc)
        []

/-- Association lookup in the fetched-data dict. -/
def tfGet (k : String) : List (String × List Candle) → Option (List Candle)
  | [] => none
  | (k', v) :: rest => if k' = k then some v else tfGet k rest

/-- `AdvancedCryptoAnalytics.fetch_market_data`: request 1h and 2h data and
return `None` unless the result is nonempty and has both timeframes. -/
def fetch_market_data
    (find_symbol : String → String → Option String)
    (fetch : String → String → String → ℕ → Option (List Candle))
    (symbol : String) : Option (List (String × List Candle)) :=
  let data := get_multi_timeframe_data find_symbol fetch symbol
    [("1h", 50), ("2h", 100)]
  if data = [] ∨ tfGet "1h" data = none ∨ tfGet "2h" data = none then none
  else some data

/-! ## Dictionary lemmas -/

theorem dictGet_dictSet_self (k : String) (v : CacheRecord) (c : DedupCache) :
    dictGet k (dictSet k v c) = some v := by
  induction c with
  | nil => simp [dictGet, dictSet]
  | cons hd tl ih =>
      by_cases h : hd.1 = k
      · simp [dictGet, dictSet, h]
      · simpa [dictGet, dictSet, h] using ih

theorem dictGet_dictSet_ne (k k' : String) (v : CacheRecord) (c : DedupCache)
    (h : k' ≠ k) : dictGet k' (dictSet k v c) = dictGet k' c := by
  induction c with
  | nil =>
      simp only [dictSet, dictGet]
      rw [if_neg fun hh => h hh.symm]
  | cons hd tl ih =>
      by_cases hk : hd.1 = k
      · subst hk
        by_cases hk' : hd.1 = k' <;> simp_all [dictGet, dictSet]
      · by_cases hk' : hd.1 = k' <;> simp_all [dictGet, dictSet]

theorem dictGet_dictDel_self (k : String) (c : DedupCache)
    (h : (c.map Prod.fst).Nodup) : dictGet k (dictDel k c) = none := by
  induction c with
  | nil => simp [dictGet, dictDel]
  | cons hd tl ih =>
      simp only [List.map_cons, List.nodup_cons] at h
      by_cases hk : hd.1 = k
      · subst hk
        cases hg : dictGet hd.1 tl with
        | none => simp [dictDel, hg]
        | some v =>
            exfalso
            apply h.1
            clear ih h
            induction tl with
            | nil => simp [dictGet] at hg
            | cons hd' tl' ih' =>
                by_cases h2 : hd'.1 = hd.1
                · simp [h2]
                · simp only [dictGet, h2, if_false] at hg
                  simpa using Or.inr (ih' hg)
      · simpa [dictDel, dictGet, hk] using ih h.2

theorem dictGet_dictDel_ne (k k' : String) (c : DedupCache) (h : k' ≠ k) :
    dictGet k' (dictDel k c) = dictGet k' c := by
  induction c with
  | nil => simp [dictDel]
  | cons hd tl ih =>
      obtain ⟨a, b⟩ := hd
      by_cases hk : a = k
      · subst hk
        simp [dictDel, dictGet, Ne.symm h]
      · simp only [dictDel, if_neg hk, dictGet]
        by_cases hk' : a = k' <;> simp [hk', ih]

/-! ## Concrete fixtures -/

/-- A fully populated asset descriptor. -/
def coinBTC : Coin :=
  { symbol := some "BTC", current_price := some 50,
    total_volume := some 100000000 }

/-- A fully populated confirmed BUY signal on the candle closing
2025-01-01 08:00. -/
def sigBuy : Signal :=
  { signal_type := some "BUY"
    candle_timestamp := some (.dt ⟨2025, 1, 1, 8, 0⟩)
    wt1 := some (-62), wt2 := some (-63)
    stoch_rsi_k := some 15, stoch_rsi_d := some 12
    strength := some 125 }

/-- The same signal re-observed 15 minutes later inside the same hour,
with identical oscillator values. -/
def sigBuyLater : Signal :=
  { sigBuy with candle_timestamp := some (.dt ⟨2025, 1, 1, 8, 15⟩) }

/-- A reference wall-clock datetime, paired with epoch second 0. -/
def dt0 : PyDateTime := ⟨2025, 1, 1, 9, 0⟩

/-- The cache record `mark_sent` writes for `coinBTC`/`sigBuy` at epoch 0. -/
def recBuy : CacheRecord :=
  { symbol := "BTC", signal_type := "BUY", timestamp := some 0,
    wt1 := -62, wt2 := -63, stoch_k := 15, stoch_d := 12, price := 50 }

set_option maxRecDepth 1000000 in
/-- Claim C1, counterexample.  Marking `sigBuy` sent at epoch second 0
stores exactly one record with timestamp 0 (its first-seen time), yet
re-checking the identical signal 4 hours and 1 second later (epoch
14401 > 14400) still reports a duplicate: the code's window is
strength-dependent (6 h here, since strength 125 > 120), never the
claimed 4 hours. -/
theorem c1_counterexample :
    (mark_sent [] coinBTC sigBuy dt0 0 []).1
        = [(create_cache_key coinBTC sigBuy dt0 0, recBuy)] ∧
    (14400 : ℤ) < 14401 - 0 ∧
    (is_duplicate (mark_sent [] coinBTC sigBuy dt0 0 []).1
        coinBTC sigBuy dt0 14401).1 = true := by
  refine ⟨rfl, by norm_num, ?_⟩
  with_unfolding_all decide

/-- Claim C1, amended.  `is_duplicate` reports a duplicate iff the cache
holds a record under the computed key whose stored timestamp parses and
is within the strength-dependent window (6 h above strength 120, 8 h
above 100, else 12 h) of the current time; an expired record is evicted
by the lookup (stated for well-formed caches with distinct keys). -/
theorem c1_amended_theorem :
    ∀ (cache : DedupCache) (coin : Coin) (signal : Signal)
      (nowDT : PyDateTime) (nowSec : ℤ),
      (((is_duplicate cache coin signal nowDT nowSec).1 = true) ↔
        (∃ r, dictGet (create_cache_key coin signal nowDT nowSec) cache = some r ∧
          ∃ ts, r.timestamp = some ts ∧
            nowSec - ts < dedupWindow (signal.strength.getD 0))) ∧
      (∀ r ts, dictGet (create_cache_key coin signal nowDT nowSec) cache = some r →
        r.timestamp = some ts →
        ¬ (nowSec - ts < dedupWindow (signal.strength.getD 0)) →
        (cache.map Prod.fst).Nodup →
        dictGet (create_cache_key coin signal nowDT nowSec)
          (is_duplicate cache coin signal nowDT nowSec).2 = none) := by
  intro cache coin signal nowDT nowSec
  constructor
  · cases hg : dictGet (create_cache_key coin signal nowDT nowSec) cache with
    | none => simp [is_duplicate, is_duplicate_body, hg]
    | some r =>
        cases ht : r.timestamp with
        | none => simp [is_duplicate, is_duplicate_body, hg, ht]
        | some ts =>
            by_cases hlt :
                nowSec - ts < dedupWindow (signal.strength.getD 0) <;>
              simp [is_duplicate, is_duplicate_body, hg, ht, hlt]
  · intro r ts hg ht hexp hnd
    simp only [is_duplicate, is_duplicate_body, hg, ht, if_neg hexp]
    exact dictGet_dictDel_self _ _ hnd

/-- An expired copy of `recBuy`-style state: the same record, looked up
50000 seconds later (past every window). -/
def cacheExp : DedupCache := [(create_cache_key coinBTC sigBuy dt0 0, recBuy)]

set_option maxRecDepth 1000000 in
/-- Claim C1 witness: the amended theorem applied to the concrete expired
cache, showing the eviction branch fire. -/
theorem c1_amended_witness :
    dictGet (create_cache_key coinBTC sigBuy dt0 50000) cacheExp = some recBuy ∧
    recBuy.timestamp = some 0 ∧
    ¬ ((50000 : ℤ) - 0 < dedupWindow (sigBuy.strength.getD 0)) ∧
    (cacheExp.map Prod.fst).Nodup ∧
    dictGet (create_cache_key coinBTC sigBuy dt0 50000)
      (is_duplicate cacheExp coinBTC sigBuy dt0 50000).2 = none := by
  refine ⟨by with_unfolding_all decide, rfl, by with_unfolding_all decide, by decide, ?_⟩
  exact (c1_amended_theorem cacheExp coinBTC sigBuy dt0 50000).2 recBuy 0
    (by with_unfolding_all decide) rfl (by with_unfolding_all decide) (by decide)

/-- Claim C4, counterexample.  Marking a signal sent in an initially empty
store leaves the in-memory cache holding the record but the persisted
copy still empty: `mark_sent` saves to disk only when the cache size is a
multiple of 10 (here the size is 1), so after `mark_sent` returns the
persisted cache does not contain the record. -/
theorem c4_counterexample :
    (mark_sent [] coinBTC sigBuy dt0 0 []).1
        = [(create_cache_key coinBTC sigBuy dt0 0, recBuy)] ∧
    (mark_sent [] coinBTC sigBuy dt0 0 []).2 = [] :=
  ⟨rfl, rfl⟩

/-- Claim C4, amended.  `mark_sent` inserts or overwrites the record for
the signal's fingerprint with the current timestamp and the snapshot
values, leaves every other key unchanged, and persists the cache to disk
only when the resulting cache size is a multiple of 10 (the periodic
save); otherwise the persisted copy is left as it was. -/
theorem c4_amended_theorem :
    ∀ (cache disk : DedupCache) (coin : Coin) (signal : Signal)
      (nowDT : PyDateTime) (nowSec : ℤ) (s a : String),
      coin.symbol = some s → signal.signal_type = some a →
      (dictGet (create_cache_key coin signal nowDT nowSec)
          (mark_sent cache coin signal nowDT nowSec disk).1 = some
        { symbol := s, signal_type := a, timestamp := some nowSec,
          wt1 := signal.wt1.getD 0, wt2 := signal.wt2.getD 0,
          stoch_k := signal.stoch_rsi_k.getD 0,
          stoch_d := signal.stoch_rsi_d.getD 0,
          price := coin.current_price.getD 0 }) ∧
      (∀ k, k ≠ create_cache_key coin signal nowDT nowSec →
        dictGet k (mark_sent cache coin signal nowDT nowSec disk).1 =
          dictGet k cache) ∧
      ((mark_sent cache coin signal nowDT nowSec disk).1.length % 10 = 0 →
        (mark_sent cache coin signal nowDT nowSec disk).2 =
          (mark_sent cache coin signal nowDT nowSec disk).1) ∧
      ((mark_sent cache coin signal nowDT nowSec disk).1.length % 10 ≠ 0 →
        (mark_sent cache coin signal nowDT nowSec disk).2 = disk) := by
  intro cache disk coin signal nowDT nowSec s a hs ha
  simp only [mark_sent, hs, ha]
  by_cases hlen :
      (dictSet (create_cache_key coin signal nowDT nowSec)
        { symbol := s, signal_type := a, timestamp := some nowSec,
          wt1 := signal.wt1.getD 0, wt2 := signal.wt2.getD 0,
          stoch_k := signal.stoch_rsi_k.getD 0,
          stoch_d := signal.stoch_rsi_d.getD 0,
          price := coin.current_price.getD 0 } cache).length % 10 = 0 <;>
    simp only [hlen, if_pos, if_neg, if_true, if_false] <;>
    refine ⟨dictGet_dictSet_self _ _ _, fun k hk => dictGet_dictSet_ne _ _ _ _ hk, ?_, ?_⟩ <;>
    simp [hlen]

/-- Claim C4 witness: the amended theorem applied to the empty store. -/
theorem c4_amended_witness :
    coinBTC.symbol = some "BTC" ∧ sigBuy.signal_type = some "BUY" ∧
    (dictGet (create_cache_key coinBTC sigBuy dt0 0)
        (mark_sent [] coinBTC sigBuy dt0 0 []).1 = some
      { symbol := "BTC", signal_type := "BUY", timestamp := some 0,
        wt1 := sigBuy.wt1.getD 0, wt2 := sigBuy.wt2.getD 0,
        stoch_k := sigBuy.stoch_rsi_k.getD 0,
        stoch_d := sigBuy.stoch_rsi_d.getD 0,
        price := coinBTC.current_price.getD 0 }) ∧
    (∀ k, k ≠ create_cache_key coinBTC sigBuy dt0 0 →
      dictGet k (mark_sent [] coinBTC sigBuy dt0 0 []).1 = dictGet k []) ∧
    ((mark_sent [] coinBTC sigBuy dt0 0 []).1.length % 10 = 0 →
      (mark_sent [] coinBTC sigBuy dt0 0 []).2 =
        (mark_sent [] coinBTC sigBuy dt0 0 []).1) ∧
    ((mark_sent [] coinBTC sigBuy dt0 0 []).1.length % 10 ≠ 0 →
      (mark_sent [] coinBTC sigBuy dt0 0 []).2 = []) :=
  ⟨rfl, rfl, c4_amended_theorem [] [] coinBTC sigBuy dt0 0 "BTC" "BUY" rfl rfl⟩

/-- Every deduplication window is at least 6 hours (21600 s). -/
theorem dedupWindow_lower (s : ℚ) : 21600 ≤ dedupWindow s := by
  unfold dedupWindow
  split_ifs <;> norm_num

/-- A fresh (in-window) record under the computed key makes `is_duplicate`
report a duplicate. -/
theorem is_duplicate_true_of_fresh (cache : DedupCache) (coin : Coin)
    (signal : Signal) (nowDT : PyDateTime) (nowSec : ℤ) (r : CacheRecord)
    (ts : ℤ)
    (hg : dictGet (create_cache_key coin signal nowDT nowSec) cache = some r)
    (ht : r.timestamp = some ts)
    (hlt : nowSec - ts < dedupWindow (signal.strength.getD 0)) :
    (is_duplicate cache coin signal nowDT nowSec).1 = true := by
  simp [is_duplicate, is_duplicate_body, hg, ht, hlt]

set_option maxRecDepth 1000000 in
/-- Claim C2, counterexample.  `sigBuy` and `sigBuyLater` agree on the
asset, the direction, the hour of the candle timestamp (8:00 vs 8:15)
and all four oscillator values (hence trivially on every 5-unit bucket),
yet their fingerprints differ and the second call one minute after the
first send does not report a duplicate: the key uses the minute-level
timestamp (plus 0.1-rounded values and price/volume buckets), not an
hour bucket. -/
theorem c2_counterexample :
    sigBuy.candle_timestamp = some (.dt ⟨2025, 1, 1, 8, 0⟩) ∧
    sigBuyLater.candle_timestamp = some (.dt ⟨2025, 1, 1, 8, 15⟩) ∧
    sigBuy.signal_type = sigBuyLater.signal_type ∧
    sigBuy.wt1 = sigBuyLater.wt1 ∧ sigBuy.wt2 = sigBuyLater.wt2 ∧
    sigBuy.stoch_rsi_k = sigBuyLater.stoch_rsi_k ∧
    sigBuy.stoch_rsi_d = sigBuyLater.stoch_rsi_d ∧
    create_cache_key coinBTC sigBuy dt0 0
      ≠ create_cache_key coinBTC sigBuyLater dt0 60 ∧
    (is_duplicate (mark_sent [] coinBTC sigBuy dt0 0 []).1
        coinBTC sigBuyLater dt0 60).1 = false := by
  refine ⟨rfl, rfl, rfl, rfl, rfl, rfl, rfl, ?_, ?_⟩ <;>
    with_unfolding_all decide

/-- Claim C2, amended.  The fingerprint is the first 16 hex digits of the
MD5 of the joined components: the symbol as stored, the direction, the
candle timestamp at minute precision (`%Y%m%d_%H%M`, or a string
timestamp verbatim), the four oscillator values rounded to one decimal,
the price bucket `int(price * 1000)` and the volume bucket
`int(volume / 1e6)`.  Two signals agreeing on all of those components
receive equal fingerprints, and the second call within the minimal
window after the first send reports a duplicate. -/
theorem c2_amended_theorem :
    ∀ (coin coin' : Coin) (signal signal' : Signal)
      (dtv dtv' : PyDateTime) (t t' : ℤ) (cache disk : DedupCache)
      (sym act : String),
      coin.symbol = some sym → coin'.symbol = some sym →
      signal.signal_type = some act → signal'.signal_type = some act →
      candle_ts_str signal dtv = candle_ts_str signal' dtv' →
      roundedComponent signal.wt1 = roundedComponent signal'.wt1 →
      roundedComponent signal.wt2 = roundedComponent signal'.wt2 →
      roundedComponent signal.stoch_rsi_k = roundedComponent signal'.stoch_rsi_k →
      roundedComponent signal.stoch_rsi_d = roundedComponent signal'.stoch_rsi_d →
      bucketComponent coin.current_price 1000 1
        = bucketComponent coin'.current_price 1000 1 →
      bucketComponent coin.total_volume 1 1000000
        = bucketComponent coin'.total_volume 1 1000000 →
      create_cache_key coin signal dtv t = create_cache_key coin' signal' dtv' t' ∧
      (t' - t < 21600 →
        (is_duplicate (mark_sent cache coin signal dtv t disk).1
            coin' signal' dtv' t').1 = true) := by
  intro coin coin' signal signal' dtv dtv' t t' cache disk sym act
  intro hs hs' ha ha' hts hw1 hw2 hk hd hp hv
  have hcomp : key_components coin signal dtv sym act
      = key_components coin' signal' dtv' sym act := by
    simp only [key_components, hts, hw1, hw2, hk, hd, hp, hv]
  have hkey : create_cache_key coin signal dtv t
      = create_cache_key coin' signal' dtv' t' := by
    simp only [create_cache_key, hs, hs', ha, ha', hcomp]
  refine ⟨hkey, fun hlt => ?_⟩
  have hset : dictGet (create_cache_key coin' signal' dtv' t')
      (mark_sent cache coin signal dtv t disk).1 = some
      { symbol := sym, signal_type := act, timestamp := some t,
        wt1 := signal.wt1.getD 0, wt2 := signal.wt2.getD 0,
        stoch_k := signal.stoch_rsi_k.getD 0,
        stoch_d := signal.stoch_rsi_d.getD 0,
        price := coin.current_price.getD 0 } := by
    rw [← hkey]
    simp only [mark_sent, hs, ha]
    split_ifs <;> exact dictGet_dictSet_self _ _ _
  exact is_duplicate_true_of_fresh _ _ _ _ _ _ t hset rfl
    (lt_of_lt_of_le hlt (dedupWindow_lower _))

/-- A re-observation of `sigBuy` whose raw `wt1` drifted to `-62.04`:
it still rounds to `-62.0`. -/
def sigBuyJitter : Signal := { sigBuy with wt1 := some (-1551 / 25) }

set_option maxRecDepth 1000000 in
/-- Claim C2 witness: the amended theorem applied to `sigBuy` and its
jittered re-observation 100 seconds later. -/
theorem c2_amended_witness :
    roundedComponent sigBuy.wt1 = roundedComponent sigBuyJitter.wt1 ∧
    create_cache_key coinBTC sigBuy dt0 0
      = create_cache_key coinBTC sigBuyJitter dt0 100 ∧
    (is_duplicate (mark_sent [] coinBTC sigBuy dt0 0 []).1
        coinBTC sigBuyJitter dt0 100).1 = true := by
  have h := c2_amended_theorem coinBTC coinBTC sigBuy sigBuyJitter dt0 dt0
    0 100 [] [] "BTC" "BUY" rfl rfl rfl rfl rfl
    (by with_unfolding_all decide) rfl rfl rfl rfl rfl
  exact ⟨by with_unfolding_all decide, h.1, h.2 (by norm_num)⟩

/-- Lookup of the head key of an association list. -/
theorem dictGet_cons_self (k : String) (v : CacheRecord) (rest : DedupCache) :
    dictGet k ((k, v) :: rest) = some v := by
  simp [dictGet]

/-- In a well-formed cache, any record surviving a deletion was already
present under the same key. -/
theorem dictGet_of_dictDel (k key : String) (c : DedupCache)
    (hnd : (c.map Prod.fst).Nodup) (r : CacheRecord)
    (h : dictGet k (dictDel key c) = some r) : dictGet k c = some r := by
  by_cases hk : k = key
  · subst hk
    rw [dictGet_dictDel_self k c hnd] at h
    exact absurd h (by simp)
  · rwa [dictGet_dictDel_ne key k c hk] at h

/-- A coin descriptor whose `symbol` key is missing. -/
def coinNoSymbol : Coin := { coinBTC with symbol := none }

/-- A cache holding, under the proper fingerprint of `sigBuy`, a record
whose stored timestamp string does not parse. -/
def cacheBadTS : DedupCache :=
  [(create_cache_key coinBTC sigBuy dt0 0, { recBuy with timestamp := none })]

set_option maxRecDepth 1000000 in
/-- Claim C10.  The duplicate check fails open: `is_duplicate` returns
`false` (leaving the cache untouched) whenever its body raises — the
only raising step is the timestamp parse of the stored record; a missing
`symbol` or `signal_type` field never propagates out of
`create_cache_key`, which falls back to the simple
`SYMBOL_ACTION_epoch` key; and concretely, with a fresh matching record
in the store, the same signal paired with a coin record lacking its
`symbol` field is reported as not-duplicate (so the pipeline would
dispatch again) even though the matching non-expired record exists. -/
theorem c10_theorem :
    (∀ (cache : DedupCache) (coin : Coin) (signal : Signal)
      (nowDT : PyDateTime) (nowSec : ℤ) (e : String),
      is_duplicate_body cache coin signal nowDT nowSec = .error e →
      is_duplicate cache coin signal nowDT nowSec = (false, cache)) ∧
    (∀ (coin : Coin) (signal : Signal) (nowDT : PyDateTime) (nowSec : ℤ),
      coin.symbol = none ∨ signal.signal_type = none →
      create_cache_key coin signal nowDT nowSec =
        (coin.symbol.getD "UNKNOWN") ++ "_" ++
          (signal.signal_type.getD "NONE") ++ "_" ++ toString nowSec) ∧
    ((is_duplicate (mark_sent [] coinBTC sigBuy dt0 0 []).1
        coinBTC sigBuy dt0 100).1 = true ∧
      (is_duplicate (mark_sent [] coinBTC sigBuy dt0 0 []).1
        coinNoSymbol sigBuy dt0 100).1 = false) := by
  refine ⟨?_, ?_, ?_, ?_⟩
  · intro cache coin signal nowDT nowSec e h
    simp [is_duplicate, h]
  · intro coin signal nowDT nowSec h
    cases hcs : coin.symbol with
    | none => cases hct : signal.signal_type <;> simp [create_cache_key, hcs, hct]
    | some s =>
        cases hct : signal.signal_type with
        | none => simp [create_cache_key, hcs, hct]
        | some a => rcases h with h | h <;> simp_all
  · with_unfolding_all decide
  · with_unfolding_all decide

set_option maxRecDepth 1000000 in
/-- Claim C10 witness: the fail-open branches at concrete inputs — a
malformed stored timestamp makes the body raise and `is_duplicate`
return `false` with the cache unchanged, and a missing `symbol` field
yields the fallback key. -/
theorem c10_witness :
    is_duplicate_body cacheBadTS coinBTC sigBuy dt0 0 = .error "fromisoformat" ∧
    is_duplicate cacheBadTS coinBTC sigBuy dt0 0 = (false, cacheBadTS) ∧
    coinNoSymbol.symbol = none ∧
    create_cache_key coinNoSymbol sigBuy dt0 5 = "UNKNOWN_BUY_5" := by
  have hbody : is_duplicate_body cacheBadTS coinBTC sigBuy dt0 0
      = .error "fromisoformat" := by
    show is_duplicate_body
      [(create_cache_key coinBTC sigBuy dt0 0,
        { recBuy with timestamp := none })] coinBTC sigBuy dt0 0 = _
    simp [is_duplicate_body, dictGet_cons_self, recBuy]
  refine ⟨hbody, c10_theorem.1 cacheBadTS coinBTC sigBuy dt0 0 _ hbody, rfl, ?_⟩
  have h := c10_theorem.2.1 coinNoSymbol sigBuy dt0 5 (Or.inl rfl)
  simpa using h

set_option maxRecDepth 1000000 in
/-- Claim C7, counterexample.  With an expired record for the fingerprint
in the store, a cycle whose dispatch fails still changes the
deduplication store: the duplicate check lazily evicts the expired
record, so the store goes from one entry to empty even though the signal
was not marked sent. -/
theorem c7_counterexample :
    cacheExp ≠ [] ∧
    (process_signal_step cacheExp [] coinBTC sigBuy dt0 50000 false).1.1 = [] ∧
    (process_signal_step cacheExp [] coinBTC sigBuy dt0 50000 false).2.2 = false := by
  refine ⟨by simp [cacheExp], ?_, ?_⟩ <;> with_unfolding_all decide

/-- Claim C7, amended.  When dispatch fails, the signal is not marked sent
and not counted: the in-memory store is exactly what the duplicate check
left (it can only have lost a lazily evicted expired record, never
gained or changed one), the persisted copy is untouched, the fingerprint
is absent or unreadable afterwards so a later cycle with a stable
fingerprint is again not reported as duplicate, and `mark_sent` runs
only when dispatch reports success. -/
theorem c7_amended_theorem :
    ∀ (cache disk : DedupCache) (coin : Coin) (signal : Signal)
      (nowDT : PyDateTime) (nowSec : ℤ),
      (cache.map Prod.fst).Nodup →
      (is_duplicate cache coin signal nowDT nowSec).1 = false →
      ((process_signal_step cache disk coin signal nowDT nowSec false).2.2 = false ∧
       (process_signal_step cache disk coin signal nowDT nowSec false).2.1 = false ∧
       (process_signal_step cache disk coin signal nowDT nowSec false).1.1 =
         (is_duplicate cache coin signal nowDT nowSec).2 ∧
       (process_signal_step cache disk coin signal nowDT nowSec false).1.2 = disk ∧
       (∀ k r, dictGet k (is_duplicate cache coin signal nowDT nowSec).2 = some r →
         dictGet k cache = some r) ∧
       (∀ nowSec2 : ℤ,
         create_cache_key coin signal nowDT nowSec2
           = create_cache_key coin signal nowDT nowSec →
         (is_duplicate
             (process_signal_step cache disk coin signal nowDT nowSec false).1.1
             coin signal nowDT nowSec2).1 = false) ∧
       (∀ dOk : Bool,
         (process_signal_step cache disk coin signal nowDT nowSec dOk).2.2 = true →
         dOk = true)) := by
  intro cache disk coin signal nowDT nowSec hnd hdup
  have hstep : process_signal_step cache disk coin signal nowDT nowSec false =
      (((is_duplicate cache coin signal nowDT nowSec).2, disk), false, false) := by
    simp [process_signal_step, hdup]
  refine ⟨by simp [hstep], by simp [hstep], by simp [hstep], by simp [hstep],
    ?_, ?_, ?_⟩
  · intro k r hk
    revert hdup hk
    cases hg : dictGet (create_cache_key coin signal nowDT nowSec) cache with
    | none => simp [is_duplicate, is_duplicate_body, hg]
    | some r0 =>
        cases ht : r0.timestamp with
        | none => simp [is_duplicate, is_duplicate_body, hg, ht]
        | some ts =>
            by_cases hlt : nowSec - ts <
                dedupWindow (signal.strength.getD 0)
            · simp [is_duplicate, is_duplicate_body, hg, ht, hlt]
            · intro _ hk
              simp only [is_duplicate, is_duplicate_body, hg, ht,
                if_neg hlt] at hk
              exact dictGet_of_dictDel _ _ _ hnd _ hk
  · intro nowSec2 hkeq
    rw [hstep]
    revert hdup
    cases hg : dictGet (create_cache_key coin signal nowDT nowSec) cache with
    | none =>
        intro _
        simp [is_duplicate, is_duplicate_body, hg, hkeq]
    | some r0 =>
        cases ht : r0.timestamp with
        | none =>
            intro _
            simp [is_duplicate, is_duplicate_body, hg, ht, hkeq]
        | some ts =>
            by_cases hlt : nowSec - ts < dedupWindow (signal.strength.getD 0)
            · simp [is_duplicate, is_duplicate_body, hg, ht, hlt]
            · intro _
              have hdel : dictGet (create_cache_key coin signal nowDT nowSec)
                  (dictDel (create_cache_key coin signal nowDT nowSec) cache)
                    = none :=
                dictGet_dictDel_self _ _ hnd
              simp [is_duplicate, is_duplicate_body, hg, ht, if_neg hlt,
                hkeq, hdel]
  · intro dOk
    by_cases hd : (is_duplicate cache coin signal nowDT nowSec).1 <;>
      cases dOk <;> simp [process_signal_step, hd]

set_option maxRecDepth 1000000 in
/-- Claim C7 witness: the amended theorem applied to the expired-record
store with a failing dispatch. -/
theorem c7_amended_witness :
    (cacheExp.map Prod.fst).Nodup ∧
    (is_duplicate cacheExp coinBTC sigBuy dt0 50000).1 = false ∧
    ((process_signal_step cacheExp [] coinBTC sigBuy dt0 50000 false).2.2 = false ∧
     (process_signal_step cacheExp [] coinBTC sigBuy dt0 50000 false).2.1 = false ∧
     (process_signal_step cacheExp [] coinBTC sigBuy dt0 50000 false).1.1 =
       (is_duplicate cacheExp coinBTC sigBuy dt0 50000).2 ∧
     (process_signal_step cacheExp [] coinBTC sigBuy dt0 50000 false).1.2 = [] ∧
     (∀ k r, dictGet k (is_duplicate cacheExp coinBTC sigBuy dt0 50000).2 = some r →
       dictGet k cacheExp = some r) ∧
     (∀ nowSec2 : ℤ,
       create_cache_key coinBTC sigBuy dt0 nowSec2
         = create_cache_key coinBTC sigBuy dt0 50000 →
       (is_duplicate
           (process_signal_step cacheExp [] coinBTC sigBuy dt0 50000 false).1.1
           coinBTC sigBuy dt0 nowSec2).1 = false) ∧
     (∀ dOk : Bool,
       (process_signal_step cacheExp [] coinBTC sigBuy dt0 50000 dOk).2.2 = true →
       dOk = true)) := by
  refine ⟨by simp [cacheExp], by with_unfolding_all decide, ?_⟩
  exact c7_amended_theorem cacheExp [] coinBTC sigBuy dt0 50000
    (by simp [cacheExp]) (by with_unfolding_all decide)

/-! ## Heikin-Ashi invariants -/

/-- Well-formedness of a raw OHLC candle: the high is the bar's maximum
price and the low its minimum. -/
def Candle.Wf (c : Candle) : Prop :=
  c.Low ≤ c.Open ∧ c.Low ≤ c.Close ∧ c.Open ≤ c.High ∧ c.Close ≤ c.High

instance (c : Candle) : Decidable c.Wf := by
  unfold Candle.Wf
  infer_instance

/-- The body ordering invariant of a Heikin-Ashi candle. -/
def haOrdered (hc : HACandle) : Prop :=
  max hc.HA_Open hc.HA_Close ≤ hc.HA_High ∧
  min hc.HA_Open hc.HA_Close ≤ max hc.HA_Open hc.HA_Close ∧
  hc.HA_Low ≤ min hc.HA_Open hc.HA_Close

/-- The first Heikin-Ashi candle of a well-formed candle is ordered. -/
theorem haFirst_ordered (c : Candle) (h : c.Wf) : haOrdered (haFirst c) := by
  obtain ⟨h1, h2, h3, h4⟩ := h
  refine ⟨max_le (by simp [haFirst]; linarith) (by simp [haFirst]; linarith),
    min_le_max, le_min (by simp [haFirst]; linarith) (by simp [haFirst]; linarith)⟩

/-- Every candle produced by the recurrence step is ordered, with no
assumption on the inputs: the high is a max over the body and the low a
min over it. -/
theorem haTail_ordered (prev : HACandle) (cs : List Candle) :
    ∀ hc ∈ haTail prev cs, haOrdered hc := by
  induction cs generalizing prev with
  | nil => simp [haTail]
  | cons c rest ih =>
      intro hc hmem
      simp only [haTail, List.mem_cons] at hmem
      rcases hmem with rfl | hmem
      · exact ⟨le_max_right _ _, min_le_max,
          le_trans (min_le_right _ _) (le_refl _)⟩
      · exact ih _ hc hmem

/-- The tail of the conversion has one output row per input row. -/
theorem haTail_length (prev : HACandle) (cs : List Candle) :
    (haTail prev cs).length = cs.length := by
  induction cs generalizing prev with
  | nil => rfl
  | cons c rest ih => simp [haTail, ih]

/-- Claim C5.  `convert` fails on fewer than 2 candles; on a well-formed
series of length at least 2 it succeeds, the output has the input's
length, and every output row satisfies
`HA_high ≥ max(HA_open, HA_close) ≥ min(HA_open, HA_close) ≥ HA_low`. -/
theorem c5_theorem :
    (∀ df : List Candle, df.length < 2 → convert df = none) ∧
    (∀ df : List Candle, 2 ≤ df.length → (∀ c ∈ df, c.Wf) →
      ∃ ha, convert df = some ha ∧ ha.length = df.length ∧
        ∀ i (hi : i < ha.length), haOrdered (ha.get ⟨i, hi⟩)) := by
  constructor
  · intro df h
    simp [convert, h]
  · intro df hlen hwf
    cases df with
    | nil => simp at hlen
    | cons c cs =>
        refine ⟨haFirst c :: haTail (haFirst c) cs, ?_, ?_, ?_⟩
        · simp only [List.length_cons] at hlen
          simp [convert]
          omega
        · simp [haTail_length]
        · intro i hi
          have hmem := List.get_mem (haFirst c :: haTail (haFirst c) cs) i hi
          rcases List.mem_cons.mp hmem with heq | hmem'
          · rw [heq]
            exact haFirst_ordered c (hwf c (List.mem_cons_self c cs))
          · exact haTail_ordered (haFirst c) cs _ hmem'

/-- A small well-formed candle series. -/
def dfPair : List Candle :=
  [{ Open := 10, High := 12, Low := 9, Close := 11 },
   { Open := 11, High := 14, Low := 10, Close := 13 }]

/-- Claim C5 witness: the theorem applied to the two-candle series. -/
theorem c5_witness :
    (2 ≤ dfPair.length ∧ ∀ c ∈ dfPair, c.Wf) ∧
    (∃ ha, convert dfPair = some ha ∧ ha.length = dfPair.length ∧
      ∀ i (hi : i < ha.length), haOrdered (ha.get ⟨i, hi⟩)) := by
  refine ⟨⟨by decide, by with_unfolding_all decide⟩, ?_⟩
  exact c5_theorem.2 dfPair (by decide) (by with_unfolding_all decide)

/-! ## TrendPulse characterization -/

/-- The two tier branches of the threshold test are textually identical, so
the decision does not depend on the tier string. -/
theorem cross_signal_tier (t : String) (a b c d : ℚ) :
    cross_signal t a b c d = cross_signal "STANDARD" a b c d := by
  unfold cross_signal
  simp only [ite_self]

/-- The emitted label is `BUY` exactly on a bullish cross into oversold
territory. -/
theorem cross_signal_buy_iff (t : String) (a b c d : ℚ) :
    (cross_signal t a b c d).2 = "BUY" ↔
      a ≤ b ∧ d < c ∧ c ≤ -60 ∧ d ≤ -60 := by
  unfold cross_signal
  simp only [ite_self]
  split_ifs with h1 h2
  · simp only [Bool.and_eq_true, decide_eq_true_eq, gt_iff_lt] at h1
    simp [h1.1.1, h1.1.2, h1.2.1, h1.2.2]
  · have h1' : ¬((a ≤ b ∧ d < c) ∧ c ≤ -60 ∧ d ≤ -60) := by
      simpa [Bool.and_eq_true, decide_eq_true_eq, gt_iff_lt] using h1
    constructor
    · intro hx; exact absurd hx (by decide)
    · intro hx; exact absurd ⟨⟨hx.1, hx.2.1⟩, hx.2.2.1, hx.2.2.2⟩ h1'
  · have h1' : ¬((a ≤ b ∧ d < c) ∧ c ≤ -60 ∧ d ≤ -60) := by
      simpa [Bool.and_eq_true, decide_eq_true_eq, gt_iff_lt] using h1
    constructor
    · intro hx; exact absurd hx (by decide)
    · intro hx; exact absurd ⟨⟨hx.1, hx.2.1⟩, hx.2.2.1, hx.2.2.2⟩ h1'

/-- The emitted label is `SELL` exactly on a bearish cross into overbought
territory. -/
theorem cross_signal_sell_iff (t : String) (a b c d : ℚ) :
    (cross_signal t a b c d).2 = "SELL" ↔
      b ≤ a ∧ c < d ∧ 60 ≤ c ∧ 60 ≤ d := by
  unfold cross_signal
  simp only [ite_self]
  split_ifs with h1 h2
  · simp only [Bool.and_eq_true, decide_eq_true_eq, gt_iff_lt] at h1
    constructor
    · intro hx; exact absurd hx (by decide)
    · intro hx; exact absurd hx.2.1 (not_lt.mpr (le_of_lt h1.1.2))
  · simp only [Bool.and_eq_true, decide_eq_true_eq, ge_iff_le] at h2
    simp [h2.1.1, h2.1.2, h2.2.1, h2.2.2]
  · have h2' : ¬((b ≤ a ∧ c < d) ∧ 60 ≤ c ∧ 60 ≤ d) := by
      simpa [Bool.and_eq_true, decide_eq_true_eq, ge_iff_le] using h2
    constructor
    · intro hx; exact absurd hx (by decide)
    · intro hx; exact absurd ⟨⟨hx.1, hx.2.1⟩, hx.2.2.1, hx.2.2.2⟩ h2'

/-- A signal fires exactly on a bullish cross into oversold or a bearish
cross into overbought. -/
theorem cross_signal_fst_iff (t : String) (a b c d : ℚ) :
    (cross_signal t a b c d).1 = true ↔
      (a ≤ b ∧ d < c ∧ c ≤ -60 ∧ d ≤ -60) ∨
      (b ≤ a ∧ c < d ∧ 60 ≤ c ∧ 60 ≤ d) := by
  unfold cross_signal
  simp only [ite_self]
  split_ifs with h1 h2
  · simp only [Bool.and_eq_true, decide_eq_true_eq, gt_iff_lt] at h1
    exact iff_of_true rfl (Or.inl ⟨h1.1.1, h1.1.2, h1.2.1, h1.2.2⟩)
  · simp only [Bool.and_eq_true, decide_eq_true_eq, ge_iff_le] at h2
    exact iff_of_true rfl (Or.inr ⟨h2.1.1, h2.1.2, h2.2.1, h2.2.2⟩)
  · have h1' : ¬((a ≤ b ∧ d < c) ∧ c ≤ -60 ∧ d ≤ -60) := by
      simpa [Bool.and_eq_true, decide_eq_true_eq, gt_iff_lt] using h1
    have h2' : ¬((b ≤ a ∧ c < d) ∧ 60 ≤ c ∧ 60 ≤ d) := by
      simpa [Bool.and_eq_true, decide_eq_true_eq, ge_iff_le] using h2
    constructor
    · intro hx; exact absurd hx (by decide)
    · rintro (hx | hx)
      · exact absurd ⟨⟨hx.1, hx.2.1⟩, hx.2.2.1, hx.2.2.2⟩ h1'
      · exact absurd ⟨⟨hx.1, hx.2.1⟩, hx.2.2.1, hx.2.2.2⟩ h2'

/-- With its warm-up satisfied, `analyze` is the cross/extreme decision on
the closed-candle rows of the computed oscillator series. -/
theorem analyze_eq (ha : List HACandle) (tier_type : String)
    (h : 26 ≤ ha.length) :
    analyze ha tier_type =
      { has_signal := (cross_signal tier_type (wt1At ha (ha.length - 3))
          (wt2At ha (ha.length - 3)) (wt1At ha (ha.length - 2))
          (wt2At ha (ha.length - 2))).1
        signal_type := (cross_signal tier_type (wt1At ha (ha.length - 3))
          (wt2At ha (ha.length - 3)) (wt1At ha (ha.length - 2))
          (wt2At ha (ha.length - 2))).2
        wt1 := wt1At ha (ha.length - 2)
        wt2 := wt2At ha (ha.length - 2)
        strength := strengthOf (wt1At ha (ha.length - 2))
          (wt2At ha (ha.length - 2))
        cross_type := some (crossTypeOf (wt1At ha (ha.length - 3))
          (wt2At ha (ha.length - 3)) (wt1At ha (ha.length - 2))
          (wt2At ha (ha.length - 2))) } := by
  unfold analyze
  rw [if_neg (by omega), if_neg (by omega)]

/-- Claim C3.  For a series past the warm-up (`channel + averaging + 5 =
26` rows), `analyze` emits `BUY` iff `wt1 ≤ wt2` at row `-3`, `wt1 > wt2`
at row `-2` and both are at most `-60` at row `-2`; it emits `SELL` on
the mirror conditions; a signal fires exactly in those two cases; the
strength is `|wt1| + |wt2|` at row `-2`; with fewer rows the no-signal
result is returned; and the fixture `(-65, -55, -62, -63)` fires `BUY`
with strength `125`. -/
theorem c3_theorem :
    (∀ (ha : List HACandle) (tier_type : String), 26 ≤ ha.length →
      ((analyze ha tier_type).signal_type = "BUY" ↔
        (wt1At ha (ha.length - 3) ≤ wt2At ha (ha.length - 3) ∧
         wt2At ha (ha.length - 2) < wt1At ha (ha.length - 2) ∧
         wt1At ha (ha.length - 2) ≤ -60 ∧ wt2At ha (ha.length - 2) ≤ -60)) ∧
      ((analyze ha tier_type).signal_type = "SELL" ↔
        (wt2At ha (ha.length - 3) ≤ wt1At ha (ha.length - 3) ∧
         wt1At ha (ha.length - 2) < wt2At ha (ha.length - 2) ∧
         60 ≤ wt1At ha (ha.length - 2) ∧ 60 ≤ wt2At ha (ha.length - 2))) ∧
      ((analyze ha tier_type).has_signal = true ↔
        ((wt1At ha (ha.length - 3) ≤ wt2At ha (ha.length - 3) ∧
          wt2At ha (ha.length - 2) < wt1At ha (ha.length - 2) ∧
          wt1At ha (ha.length - 2) ≤ -60 ∧ wt2At ha (ha.length - 2) ≤ -60) ∨
         (wt2At ha (ha.length - 3) ≤ wt1At ha (ha.length - 3) ∧
          wt1At ha (ha.length - 2) < wt2At ha (ha.length - 2) ∧
          60 ≤ wt1At ha (ha.length - 2) ∧ 60 ≤ wt2At ha (ha.length - 2)))) ∧
      (analyze ha tier_type).strength =
        strengthOf (wt1At ha (ha.length - 2)) (wt2At ha (ha.length - 2))) ∧
    (∀ (ha : List HACandle) (tier_type : String), ha.length < 26 →
      analyze ha tier_type = noSignalResult) ∧
    (cross_signal "STANDARD" (-65) (-55) (-62) (-63) = (true, "BUY") ∧
      strengthOf (-62) (-63) = 125) := by
  refine ⟨?_, ?_, ?_, ?_⟩
  · intro ha tier_type h
    rw [analyze_eq ha tier_type h]
    exact ⟨cross_signal_buy_iff _ _ _ _ _, cross_signal_sell_iff _ _ _ _ _,
      cross_signal_fst_iff _ _ _ _ _, rfl⟩
  · intro ha tier_type h
    unfold analyze
    rw [if_pos h]
  · with_unfolding_all decide
  · show |(-62 : ℚ)| + |(-63 : ℚ)| = 125
    norm_num

/-- A flat Heikin-Ashi series past the warm-up. -/
def haFlat : List HACandle :=
  List.replicate 26 { HA_Open := 1, HA_High := 1, HA_Low := 1, HA_Close := 1 }

/-- Claim C3 witness: the characterization applied to a concrete series of
length 26 and the short-series branch applied to the empty series. -/
theorem c3_witness :
    (26 ≤ haFlat.length ∧
      ((analyze haFlat "STANDARD").has_signal = true ↔
        ((wt1At haFlat (haFlat.length - 3) ≤ wt2At haFlat (haFlat.length - 3) ∧
          wt2At haFlat (haFlat.length - 2) < wt1At haFlat (haFlat.length - 2) ∧
          wt1At haFlat (haFlat.length - 2) ≤ -60 ∧
          wt2At haFlat (haFlat.length - 2) ≤ -60) ∨
         (wt2At haFlat (haFlat.length - 3) ≤ wt1At haFlat (haFlat.length - 3) ∧
          wt1At haFlat (haFlat.length - 2) < wt2At haFlat (haFlat.length - 2) ∧
          60 ≤ wt1At haFlat (haFlat.length - 2) ∧
          60 ≤ wt2At haFlat (haFlat.length - 2))))) ∧
    (([] : List HACandle).length < 26 ∧ analyze [] "STANDARD" = noSignalResult) := by
  refine ⟨⟨by decide, ((c3_theorem.1 haFlat "STANDARD" (by decide)).2.2).1⟩,
    by decide, c3_theorem.2.1 [] "STANDARD" (by decide)⟩

/-- Claim C9.  The two risk tiers evaluate the same oscillator series and
the same threshold conditions, so `analyze` returns identical results
(wt1, wt2, decision and all) for `HIGH_RISK` and `STANDARD`. -/
theorem c9_theorem :
    ∀ ha : List HACandle, analyze ha "HIGH_RISK" = analyze ha "STANDARD" := by
  intro ha
  by_cases h : 26 ≤ ha.length
  · rw [analyze_eq ha _ h, analyze_eq ha _ h, cross_signal_tier]
  · unfold analyze
    rw [if_pos (by omega), if_pos (by omega)]

/-- Claim C6.  The confirmation is a pure threshold test: a `BUY` event is
confirmed iff `K < 20` and `D < 20`, a `SELL` event iff `K > 80` and
`D > 80`; a confirmed signal is produced by the analysis tail only when
the TrendPulse stage reported a signal and the threshold test passed (so
nothing reaches the dedup store otherwise); an unconfirmed event is
dropped (`none`) while the diagnostic reason for a confirmed one names
the passed test; and the scheduled runner's confirmation branch agrees
with the main runner's on every actual signal type. -/
theorem c6_theorem :
    (∀ k d : ℚ, (confirm_main "BUY" k d).1 = true ↔ k < 20 ∧ d < 20) ∧
    (∀ k d : ℚ, (confirm_main "SELL" k d).1 = true ↔ 80 < k ∧ 80 < d) ∧
    (∀ (tp : TPResult) (st : Option (ℚ × ℚ)) (ts : PyDateTime)
       (s : ConfirmedSignal),
      analyze_coin_tail tp st ts = some s →
      tp.has_signal = true ∧
      ∃ k d, st = some (k, d) ∧
        (confirm_main tp.signal_type k d).1 = true ∧
        s.tp = tp ∧ s.stoch_rsi_k = k ∧ s.stoch_rsi_d = d ∧
        s.confirmation_reason = (confirm_main tp.signal_type k d).2.getD "") ∧
    (∀ (tp : TPResult) (k d : ℚ) (ts : PyDateTime),
      (confirm_main tp.signal_type k d).1 = false →
      analyze_coin_tail tp (some (k, d)) ts = none) ∧
    (∀ (signal_type : String) (k d : ℚ),
      signal_type = "BUY" ∨ signal_type = "SELL" →
      (confirm_scheduled signal_type k d).1 = (confirm_main signal_type k d).1) := by
  refine ⟨?_, ?_, ?_, ?_, ?_⟩
  · intro k d; simp [confirm_main]
  · intro k d; simp [confirm_main]
  · intro tp st ts s h
    by_cases hsig : tp.has_signal
    · cases st with
      | none => simp [analyze_coin_tail, hsig] at h
      | some kd =>
          obtain ⟨k, d⟩ := kd
          by_cases hc : (confirm_main tp.signal_type k d).1
          · refine ⟨hsig, k, d, rfl, hc, ?_⟩
            simp only [analyze_coin_tail, hsig, Bool.not_true,
              Bool.false_eq_true, if_false, hc, if_true] at h
            cases h
            exact ⟨rfl, rfl, rfl, rfl⟩
          · simp [analyze_coin_tail, hsig, hc] at h
    · simp [analyze_coin_tail, hsig] at h
  · intro tp k d ts hc
    by_cases hsig : tp.has_signal <;> simp [analyze_coin_tail, hsig, hc]
  · intro signal_type k d h
    rcases h with h | h <;> subst h <;> simp [confirm_main, confirm_scheduled]

/-- A TrendPulse result as emitted for the C3 fixture values. -/
def tpFix : TPResult :=
  { has_signal := true, signal_type := "BUY", wt1 := -62, wt2 := -63,
    strength := 125, cross_type := some "bullish" }

set_option maxRecDepth 1000000 in
/-- Claim C6 witness: the pipeline at the fixture TrendPulse result and
`(K, D) = (15, 12)` produces a confirmed signal; the theorem's
production and drop branches are exercised concretely. -/
theorem c6_witness :
    (analyze_coin_tail tpFix (some (15, 12)) dt0 = some
      { tp := tpFix, stoch_rsi_k := 15, stoch_rsi_d := 12,
        confirmation_reason := "StochRSI_2H_Oversold",
        candle_timestamp := dt0 }) ∧
    (tpFix.has_signal = true ∧
      ∃ k d, (some ((15 : ℚ), (12 : ℚ)) : Option (ℚ × ℚ)) = some (k, d) ∧
        (confirm_main tpFix.signal_type k d).1 = true ∧
        ({ tp := tpFix, stoch_rsi_k := 15, stoch_rsi_d := 12,
           confirmation_reason := "StochRSI_2H_Oversold",
           candle_timestamp := dt0 } : ConfirmedSignal).tp = tpFix ∧
        ({ tp := tpFix, stoch_rsi_k := 15, stoch_rsi_d := 12,
           confirmation_reason := "StochRSI_2H_Oversold",
           candle_timestamp := dt0 } : ConfirmedSignal).stoch_rsi_k = k ∧
        ({ tp := tpFix, stoch_rsi_k := 15, stoch_rsi_d := 12,
           confirmation_reason := "StochRSI_2H_Oversold",
           candle_timestamp := dt0 } : ConfirmedSignal).stoch_rsi_d = d ∧
        ({ tp := tpFix, stoch_rsi_k := 15, stoch_rsi_d := 12,
           confirmation_reason := "StochRSI_2H_Oversold",
           candle_timestamp := dt0 } : ConfirmedSignal).confirmation_reason =
          (confirm_main tpFix.signal_type k d).2.getD "") ∧
    ((confirm_main tpFix.signal_type 50 50).1 = false ∧
      analyze_coin_tail tpFix (some (50, 50)) dt0 = none) := by
  have hprod : analyze_coin_tail tpFix (some (15, 12)) dt0 = some
      { tp := tpFix, stoch_rsi_k := 15, stoch_rsi_d := 12,
        confirmation_reason := "StochRSI_2H_Oversold",
        candle_timestamp := dt0 } := by
    with_unfolding_all decide
  have hdrop : (confirm_main tpFix.signal_type 50 50).1 = false := by
    with_unfolding_all decide
  exact ⟨hprod, c6_theorem.2.2.1 tpFix (some (15, 12)) dt0 _ hprod,
    hdrop, c6_theorem.2.2.2.1 tpFix 50 50 dt0 hdrop⟩

/-- Keys of the fetched-data dict come from the requested timeframes. -/
theorem fetch_fold_keys (g : String → ℕ → Option (List Candle)) :
    ∀ (tfs : List (String × ℕ)) (p : String × List Candle),
      p ∈ tfs.foldr
        (fun tf acc =>
          match g tf.1 tf.2 with
          | some df => (tf.1, df) :: acc
          | none => acc) [] →
      p.1 ∈ tfs.map Prod.fst := by
  intro tfs
  induction tfs with
  | nil => simp
  | cons t rest ih =>
      intro p hp
      simp only [List.foldr_cons] at hp
      cases hg : g t.1 t.2 with
      | none =>
          rw [hg] at hp
          exact List.mem_cons_of_mem _ (ih p hp)
      | some df =>
          rw [hg] at hp
          rcases List.mem_cons.mp hp with rfl | hp'
          · exact List.mem_cons_self _ _
          · exact List.mem_cons_of_mem _ (ih p hp')

/-- Every entry of `get_multi_timeframe_data` is one of the requested
timeframes. -/
theorem get_multi_timeframe_data_keys
    (find_symbol : String → String → Option String)
    (fetch : String → String → String → ℕ → Option (List Candle))
    (symbol : String) (tfs : List (String × ℕ)) :
    ∀ p ∈ get_multi_timeframe_data find_symbol fetch symbol tfs,
      p.1 ∈ tfs.map Prod.fst := by
  unfold get_multi_timeframe_data
  cases hw : find_working find_symbol symbol with
  | none => simp [hw]
  | some r =>
      obtain ⟨ex, sym⟩ := r
      intro p hp
      exact fetch_fold_keys (fetch ex sym) tfs p hp

/-- Claim C8.  The data handed to the analysis stage is all-or-nothing:
`fetch_market_data` either returns `none` or a dict that contains both
requested timeframes and nothing else — never a proper non-empty subset
of the request; and in general every timeframe present in a
`get_multi_timeframe_data` result was requested. -/
theorem c8_theorem :
    (∀ (find_symbol : String → String → Option String)
       (fetch : String → String → String → ℕ → Option (List Candle))
       (symbol : String) (d : List (String × List Candle)),
      fetch_market_data find_symbol fetch symbol = some d →
      (tfGet "1h" d).isSome ∧ (tfGet "2h" d).isSome ∧
        ∀ p ∈ d, p.1 = "1h" ∨ p.1 = "2h") ∧
    (∀ (find_symbol : String → String → Option String)
       (fetch : String → String → String → ℕ → Option (List Candle))
       (symbol : String) (tfs : List (String × ℕ)),
      ∀ p ∈ get_multi_timeframe_data find_symbol fetch symbol tfs,
        p.1 ∈ tfs.map Prod.fst) := by
  constructor
  · intro find_symbol fetch symbol d h
    unfold fetch_market_data at h
    simp only [] at h
    split_ifs at h with hc
    cases h
    push_neg at hc
    refine ⟨Option.isSome_iff_ne_none.mpr hc.2.1,
      Option.isSome_iff_ne_none.mpr hc.2.2, ?_⟩
    intro p hp
    have := get_multi_timeframe_data_keys find_symbol fetch symbol
      [("1h", 50), ("2h", 100)] p hp
    simpa using this
  · exact get_multi_timeframe_data_keys

/-- A resolver that finds the pair on the first source and always returns
the same candles. -/
def fsAlways : String → String → Option String := fun _ base => some (base ++ "/USDT")

/-- A fetcher that succeeds for every timeframe. -/
def fetchAlways : String → String → String → ℕ → Option (List Candle) :=
  fun _ _ _ _ => some dfPair

set_option maxRecDepth 1000000 in
/-- Claim C8 witness: the theorem applied to a concrete always-succeeding
source, whose result holds exactly the two requested timeframes. -/
theorem c8_witness :
    fetch_market_data fsAlways fetchAlways "BTC"
        = some [("1h", dfPair), ("2h", dfPair)] ∧
    ((tfGet "1h" [("1h", dfPair), ("2h", dfPair)]).isSome ∧
     (tfGet "2h" [("1h", dfPair), ("2h", dfPair)]).isSome ∧
     ∀ p ∈ [("1h", dfPair), ("2h", dfPair)], p.1 = "1h" ∨ p.1 = "2h") := by
  have h : fetch_market_data fsAlways fetchAlways "BTC"
      = some [("1h", dfPair), ("2h", dfPair)] := by
    with_unfolding_all decide
  exact ⟨h, c8_theorem.1 fsAlways fetchAlways "BTC" _ h⟩

instance (hc : HACandle) : Decidable (haOrdered hc) := by
  unfold haOrdered
  infer_instance

/-- A two-candle sequence whose first candle is ill-formed: its `High` of 5
lies below the open/close body. -/
def dfBad : List Candle :=
  [{ Open := 10, High := 5, Low := 0, Close := 11 },
   { Open := 11, High := 14, Low := 10, Close := 13 }]

set_option maxRecDepth 1000000 in
/-- Claim C5, counterexample.  The claim quantifies over all candle
sequences of length at least 2, but `convert` copies `High` and `Low`
verbatim into the first Heikin-Ashi row: on `dfBad` it succeeds and
returns a first row with `HA_Open = 10.5`, `HA_Close = 6.5` but
`HA_High = 5`, violating `HA_high ≥ max(HA_open, HA_close)` at index 0. -/
theorem c5_counterexample :
    2 ≤ dfBad.length ∧
    convert dfBad = some
      [{ HA_Open := 21 / 2, HA_High := 5, HA_Low := 0, HA_Close := 13 / 2 },
       { HA_Open := 17 / 2, HA_High := 14, HA_Low := 17 / 2, HA_Close := 12 }] ∧
    ¬ haOrdered
      { HA_Open := 21 / 2, HA_High := 5, HA_Low := 0, HA_Close := 13 / 2 } := by
  refine ⟨by decide, by with_unfolding_all decide, by with_unfolding_all decide⟩
